import Mathlib

/-!
Verification development for the Polyglot converter (`src/app.py`), a
Python-to-`{c, cpp, java}` source transpiler.  The Python code is embedded
shallowly: the relevant fragment of Python's `ast` node shapes is an
inductive type, `PythonParser._visit_block` / `_eval_val` / `_eval_cond` /
`_is_main_check` become total Lean functions (a Python exception raised
during the walk is modelled as an `Option String` error channel carrying
the message, and the in-place mutation of the output list is explicit
state passing), and `Generator.generate` / `_gen_block` thread the
`declared_vars` set explicitly.  The result of the external library call
`ast.parse` is taken as a parameter of type `Except String (List PyStmt)`:
either the parsed statement list or the raised syntax-error text.
-/

namespace App

/-- The double-quote character (written by code point to keep source plain). -/
def quoteChar : Char := Char.ofNat 34

/-- The double-quote as a one-character string. -/
def quoteStr : String := String.mk [quoteChar]

/-- Binary arithmetic operator node kinds (`ast.Add` etc.); `otherOp`
stands for any operator class not in the parser's `op_map`. -/
inductive PyBinOp where
  | add
  | sub
  | mult
  | div
  | otherOp
deriving DecidableEq, Repr

/-- Comparison operator node kinds (`ast.Eq` etc.); `notEq` is `ast.NotEq`
(absent from the parser's `ops` map) and `otherCmp` any other class. -/
inductive PyCmpOp where
  | eq
  | notEq
  | gt
  | lt
  | ge
  | le
  | otherCmp
deriving DecidableEq, Repr

/-- Python expression nodes, restricted to the shapes `app.py` inspects.
`constFloat` carries the printable text `str()` would produce.  `compare`
keeps only the first operator and the first comparator because the source
reads only `node.ops[0]` / `node.comparators[0]`.  `otherExpr` is any
expression node kind the source does not inspect. -/
inductive PyExpr where
  | constStr (value : String)
  | constFloat (text : String)
  | constInt (value : Int)
  | name (id : String)
  | binOp (left : PyExpr) (op : PyBinOp) (right : PyExpr)
  | call (func : PyExpr) (args : List PyExpr)
  | compare (left : PyExpr) (op : PyCmpOp) (comparator : PyExpr)
  | otherExpr
deriving Repr

/-- An assignment / loop target: a bare `ast.Name` (which has an `.id`
attribute) or any other node shape, whose `.id` access raises. -/
inductive AssignTarget where
  | name (id : String)
  | otherTarget
deriving Repr

/-- Python statement nodes, restricted to the kinds `_visit_block`
distinguishes.  `otherStmt` is any statement kind with no branch. -/
inductive PyStmt where
  | functionDef
  | importStmt
  | importFrom
  | assign (target : AssignTarget) (value : PyExpr)
  | exprStmt (value : PyExpr)
  | ifStmt (test : PyExpr) (body : List PyStmt) (orelse : List PyStmt)
  | whileStmt (test : PyExpr) (body : List PyStmt)
  | forStmt (target : AssignTarget) (iter : PyExpr) (body : List PyStmt)
  | otherStmt
deriving Repr

/-- One part of a `PRINT` IR node: the quote-stripped rendered text and
the `'string'` / `'var'` classification (kept as the source's strings). -/
structure PrintPart where
  val : String
  ptype : String
deriving DecidableEq, Repr

/-- The universal IR instruction dictionary shapes built by the parser. -/
inductive Instr where
  | assign (name : String) (value : String) (vtype : String)
  | print (parts : List PrintPart)
  | ifI (condition : String) (body : List Instr) (elseBody : List Instr)
  | whileI (condition : String) (body : List Instr)
  | forI (var : String) (limit : String) (body : List Instr)
  | comment (text : String)
deriving Repr

/-- `op_map = {Add: '+', Sub: '-', Mult: '*', Div: '/'}` with default `'+'`
(`op_map.get(type(node.op), '+')`). -/
def binOpSym : PyBinOp → String
  | .add => "+"
  | .sub => "-"
  | .mult => "*"
  | .div => "/"
  | .otherOp => "+"

/-- `ops = {Eq: '==', Gt: '>', Lt: '<', GtE: '>=', LtE: '<='}` with default
`'=='` (`ops.get(type(node.ops[0]), '==')`). -/
def cmpOpSym : PyCmpOp → String
  | .eq => "=="
  | .gt => ">"
  | .lt => "<"
  | .ge => ">="
  | .le => "<="
  | .notEq => "=="
  | .otherCmp => "=="

/-- `PythonParser._eval_val`: renders an expression to `(text, typeTag)`. -/
def eval_val : PyExpr → String × String
  | .constStr s => (quoteStr ++ s ++ quoteStr, "String")
  | .constFloat t => (t, "double")
  | .constInt n => (toString n, "int")
  | .name id => (id, "var")
  | .binOp l op r =>
      ((eval_val l).1 ++ " " ++ binOpSym op ++ " " ++ (eval_val r).1, "auto")
  | .call _ _ => ("0", "int")
  | .compare _ _ _ => ("0", "int")
  | .otherExpr => ("0", "int")

/-- `PythonParser._eval_cond`: renders a condition. -/
def eval_cond : PyExpr → String
  | .compare l op c => (eval_val l).1 ++ " " ++ cmpOpSym op ++ " " ++ (eval_val c).1
  | .constStr _ => "true"
  | .constFloat _ => "true"
  | .constInt _ => "true"
  | .name _ => "true"
  | .binOp _ _ _ => "true"
  | .call _ _ => "true"
  | .otherExpr => "true"

/-- `PythonParser._is_main_check` applied to the `If` node's test: the
left operand must be the name `__name__` and the first comparator the
string constant `__main__`; any attribute error inside the inner
`try` yields `False`, and the comparison operator is never read. -/
def is_main_check : PyExpr → Bool
  | .compare (.name l) _ (.constStr s) => l == "__name__" && s == "__main__"
  | _ => false

/-- `getattr(node.value.func, 'id', '')`: the `.id` of a `Name`, else `''`. -/
def callFuncId : PyExpr → String
  | .name id => id
  | _ => ""

/-- `'"' in val` — membership of the double-quote character in a string. -/
def hasQuote (s : String) : Bool := s.data.any (fun c => c = quoteChar)

/-- `val.replace('"', '')` — every double-quote character removed. -/
def stripQuotes (s : String) : String := String.mk (s.data.filter (fun c => c ≠ quoteChar))

/-- Builds one `PRINT` part from an argument expression: render it, strip
double quotes, and classify as `'string'` iff the rendered text contained
a double quote. -/
def mkPrintPart (arg : PyExpr) : PrintPart :=
  let val := (eval_val arg).1
  ⟨stripQuotes val, if hasQuote val then "string" else "var"⟩

/-- The `limit` computation of the `ast.For` branch: `limit = "10"` unless
`node.iter` is a `Call`; for a `Call`, reading `node.iter.func.id` raises
unless `func` is a `Name`; when the name is `range`, `node.iter.args[0]`
raises on an empty argument list and otherwise the first argument's
rendered text is the limit (extra arguments are ignored). -/
def forLimit : PyExpr → Except String String
  | .call f args =>
      match f with
      | .name fid =>
          if fid == "range" then
            match args with
            | [] => .error "IndexError: list index out of range"
            | a :: _ => .ok (eval_val a).1
          else .ok "10"
      | _ => .error "AttributeError: object has no attribute id"
  | _ => .ok "10"

/-- Reading `.id` from an assignment / loop target, raising otherwise. -/
def targetId : AssignTarget → Except String String
  | .name id => .ok id
  | .otherTarget => .error "AttributeError: object has no attribute id"

mutual

/-- One iteration of the loop body of `PythonParser._visit_block` for a
single statement node: returns the extended block, or the block as left
behind together with the raised exception's text. -/
def visitNode : PyStmt → List Instr → List Instr × Option String
  | .functionDef, block => (block, none)
  | .importStmt, block => (block, none)
  | .importFrom, block => (block, none)
  | .assign t value, block =>
      match targetId t with
      | .error e => (block, some e)
      | .ok id =>
          (block ++ [.assign id (eval_val value).1 (eval_val value).2], none)
  | .exprStmt value, block =>
      match value with
      | .call f args =>
          if callFuncId f == "print" then
            (block ++ [.print (args.map mkPrintPart)], none)
          else (block, none)
      | _ => (block, none)
  | .ifStmt test body orelse, block =>
      if is_main_check test then
        visitBlock body block
      else
        match visitBlock body [] with
        | (_, some e) => (block, some e)
        | (ifBody, none) =>
            match visitBlock orelse [] with
            | (_, some e) => (block, some e)
            | (elseBody, none) =>
                (block ++ [.ifI (eval_cond test) ifBody elseBody], none)
  | .whileStmt test body, block =>
      match visitBlock body [] with
      | (_, some e) => (block, some e)
      | (loopBody, none) => (block ++ [.whileI (eval_cond test) loopBody], none)
  | .forStmt t iter body, block =>
      match targetId t with
      | .error e => (block, some e)
      | .ok id =>
          match forLimit iter with
          | .error e => (block, some e)
          | .ok limit =>
              match visitBlock body [] with
              | (_, some e) => (block, some e)
              | (loopBody, none) => (block ++ [.forI id limit loopBody], none)
  | .otherStmt, block => (block, none)

/-- `PythonParser._visit_block`: walk the statements in order, appending
IR to `block`; a raised exception aborts the walk, keeping what was
already appended. -/
def visitBlock : List PyStmt → List Instr → List Instr × Option String
  | [], block => (block, none)
  | node :: rest, block =>
      match visitNode node block with
      | (block', none) => visitBlock rest block'
      | (block', some e) => (block', some e)

end

/-- `PythonParser.parse`: `ast.parse` either raises (the `.error` case,
carrying the syntax error text) or yields the module body; any exception
escaping the walk is also caught here.  The caught exception is appended
as a `COMMENT` instruction after whatever the walk already emitted. -/
def parse (parseResult : Except String (List PyStmt)) : List Instr :=
  match parseResult with
  | .error e => [.comment ("Error: " ++ e)]
  | .ok body =>
      match visitBlock body [] with
      | (instrs, none) => instrs
      | (instrs, some e) => instrs ++ [.comment ("Error: " ++ e)]

/-- `"    " * indent_lvl`. -/
def tabOf (n : Nat) : String := String.join (List.replicate n "    ")

/-- The `# Type Fixes` block of the `ASSIGN` branch: `auto` / `var`
collapse to `int`, then `String` maps to the target's string type. -/
def fixType (lang : String) (vtype : String) : String :=
  let v := if vtype == "auto" || vtype == "var" then "int" else vtype
  if lang == "java" && v == "String" then "String"
  else if lang == "c" && v == "String" then "char*"
  else if lang == "cpp" && v == "String" then "string"
  else v

/-- One element of the cpp print comprehension, at enumeration index `i`:
a string part is always the quoted literal; otherwise a non-first part is
prefixed by the `" "` literal and the stream operator. -/
def cppPartRender : Nat × PrintPart → String
  | (i, p) =>
      if p.ptype == "string" then quoteStr ++ p.val ++ quoteStr
      else if i > 0 then quoteStr ++ " " ++ quoteStr ++ " << " ++ p.val
      else p.val

/-- One element of the java print comprehension, at enumeration index `i`. -/
def javaPartRender : Nat × PrintPart → String
  | (i, p) =>
      if p.ptype == "string" then quoteStr ++ p.val ++ quoteStr
      else if i > 0 then quoteStr ++ " " ++ quoteStr ++ " + " ++ p.val
      else p.val

/-- One `%s` / `%d` placeholder of the c format string. -/
def cFmtPart (p : PrintPart) : String := if p.ptype == "string" then "%s" else "%d"

/-- One value of the c `printf` argument list. -/
def cValPart (p : PrintPart) : String :=
  if p.ptype == "string" then quoteStr ++ p.val ++ quoteStr else p.val

mutual

/-- One iteration of the loop body of `Generator._gen_block` for a single
IR instruction: the emitted lines and the updated `declared_vars`.  There
is no `COMMENT` branch in the source, so a `comment` instruction emits
nothing. -/
def genInstr (lang : String) (instr : Instr) (indentLvl : Nat) (declared : List String) :
    List String × List String :=
  let tab := tabOf indentLvl
  match instr with
  | .assign name val vtype =>
      if name ∈ declared then
        ([tab ++ name ++ " = " ++ val ++ ";"], declared)
      else
        ([tab ++ fixType lang vtype ++ " " ++ name ++ " = " ++ val ++ ";"],
         name :: declared)
  | .print parts =>
      if lang == "cpp" then
        ([tab ++ "cout << " ++
            String.intercalate " << " (parts.enum.map cppPartRender) ++ " << endl;"],
         declared)
      else if lang == "java" then
        ([tab ++ "System.out.println(" ++
            String.intercalate " + " (parts.enum.map javaPartRender) ++ ");"],
         declared)
      else if lang == "c" then
        ([tab ++ "printf(" ++ quoteStr ++
            String.intercalate " " (parts.map cFmtPart) ++ "\\n" ++ quoteStr ++ ", " ++
            String.intercalate ", " (parts.map cValPart) ++ ");"],
         declared)
      else ([], declared)
  | .forI var limit body =>
      let head := tab ++ "for(int " ++ var ++ "=0; " ++ var ++ "<" ++ limit ++
        "; " ++ var ++ "++) \x7b"
      let res := genBlock lang body (indentLvl + 1) (var :: declared)
      ([head] ++ res.1 ++ [tab ++ "\x7d"], res.2)
  | .whileI cond body =>
      let res := genBlock lang body (indentLvl + 1) declared
      ([tab ++ "while (" ++ cond ++ ") \x7b"] ++ res.1 ++ [tab ++ "\x7d"], res.2)
  | .ifI cond body elseBody =>
      let res := genBlock lang body (indentLvl + 1) declared
      match elseBody with
      | [] => ([tab ++ "if (" ++ cond ++ ") \x7b"] ++ res.1 ++ [tab ++ "\x7d"], res.2)
      | e0 :: es =>
          let resE := genBlock lang (e0 :: es) (indentLvl + 1) res.2
          ([tab ++ "if (" ++ cond ++ ") \x7b"] ++ res.1 ++
             [tab ++ "\x7d else \x7b"] ++ resE.1 ++ [tab ++ "\x7d"], resE.2)
  | .comment _ => ([], declared)

/-- `Generator._gen_block`: emit each instruction in order, threading the
`declared_vars` set. -/
def genBlock (lang : String) (instrs : List Instr) (indentLvl : Nat) (declared : List String) :
    List String × List String :=
  match instrs with
  | [] => ([], declared)
  | i :: rest =>
      let res := genInstr lang i indentLvl declared
      let resRest := genBlock lang rest indentLvl res.2
      (res.1 ++ resRest.1, resRest.2)

end

/-- `Generator.generate`: header, body at the per-target base indent,
footer, joined by newlines; `declared_vars` starts empty. -/
def generate (instructions : List Instr) (lang : String) : String :=
  let header : List String :=
    if lang == "c" then ["#include <stdio.h>\n\nint main() \x7b"]
    else if lang == "cpp" then
      ["#include <iostream>\nusing namespace std;\n\nint main() \x7b"]
    else if lang == "java" then
      ["public class Main \x7b\n    public static void main(String[] args) \x7b"]
    else []
  let indent : Nat := if lang == "java" then 2 else 1
  let body := (genBlock lang instructions indent []).1
  let footer : List String :=
    if lang == "java" then ["    \x7d\n\x7d"] else ["    return 0;\n\x7d"]
  String.intercalate "\n" (header ++ body ++ footer)

/-- The `/convert` route's pipeline: parse, then generate for the target. -/
def translate (parseResult : Except String (List PyStmt)) (lang : String) : String :=
  generate (parse parseResult) lang

/-- Whether `needle` occurs as a contiguous sublist of `hay`. -/
def subOccList : List Char → List Char → Bool
  | _, [] => true
  | [], _ :: _ => false
  | c :: cs, n => List.isPrefixOf n (c :: cs) || subOccList cs n

/-- Whether `needle` occurs as a contiguous substring of `hay`. -/
def strOccurs (hay needle : String) : Bool := subOccList hay.data needle.data

/-- The test expression of the conventional entry-point guard,
`__name__ == "__main__"`. -/
def mainGuardTest : PyExpr := .compare (.name "__name__") .eq (.constStr "__main__")

/-! ## Helper lemmas -/

theorem visitBlock_append (xs ys : List PyStmt) (block : List Instr) :
    visitBlock (xs ++ ys) block =
      match visitBlock xs block with
      | (b, none) => visitBlock ys b
      | (b, some e) => (b, some e) := by
  induction xs generalizing block with
  | nil => simp [visitBlock]
  | cons x xs ih =>
      rw [List.cons_append, visitBlock, visitBlock]
      rcases h : visitNode x block with ⟨b, err⟩
      cases err with
      | none => simp [ih]
      | some e => simp

mutual

theorem genInstr_sub (lang : String) (i : Instr) (n : Nat) (d : List String) :
    d ⊆ (genInstr lang i n d).2 := by
  cases i with
  | assign name val vtype =>
      by_cases h : name ∈ d <;> simp [genInstr, h, List.subset_cons_of_subset]
  | print parts =>
      by_cases h1 : lang == "cpp" <;> by_cases h2 : lang == "java" <;>
        by_cases h3 : lang == "c" <;> simp [genInstr, h1, h2, h3]
  | forI var limit body =>
      simp only [genInstr]
      exact List.Subset.trans (List.subset_cons_self var d)
        (genBlock_sub lang body (n + 1) (var :: d))
  | whileI cond body =>
      simp only [genInstr]
      exact genBlock_sub lang body (n + 1) d
  | ifI cond body elseBody =>
      cases elseBody with
      | nil => simp only [genInstr]; exact genBlock_sub lang body (n + 1) d
      | cons e0 es =>
          simp only [genInstr]
          exact List.Subset.trans (genBlock_sub lang body (n + 1) d)
            (genBlock_sub lang (e0 :: es) (n + 1) _)
  | comment t => simp [genInstr]

theorem genBlock_sub (lang : String) (l : List Instr) (n : Nat) (d : List String) :
    d ⊆ (genBlock lang l n d).2 := by
  cases l with
  | nil => simp [genBlock]
  | cons i rest =>
      simp only [genBlock]
      exact List.Subset.trans (genInstr_sub lang i n d)
        (genBlock_sub lang rest n _)

end

theorem intercalate_go_append (s a b : String) (ys : List String) :
    String.intercalate.go (a ++ b) s ys = a ++ String.intercalate.go b s ys := by
  induction ys generalizing b with
  | nil => simp [String.intercalate.go]
  | cons y ys ih =>
      simp only [String.intercalate.go]
      rw [String.append_assoc a b s, String.append_assoc a (b ++ s) y]
      exact ih ((b ++ s) ++ y)

theorem intercalate_cons_cons (s x y : String) (ys : List String) :
    String.intercalate s (x :: y :: ys) = x ++ s ++ String.intercalate s (y :: ys) := by
  show String.intercalate.go x s (y :: ys) = x ++ s ++ String.intercalate.go y s ys
  simp only [String.intercalate.go]
  have h : x ++ s ++ y = (x ++ s) ++ y := rfl
  rw [h, intercalate_go_append s (x ++ s) y ys, String.append_assoc]

theorem hasQuote_stripQuotes (s : String) : hasQuote (stripQuotes s) = false := by
  simp [hasQuote, stripQuotes]

/-! ## Claims -/

/-- C1 (counterexample): for the unparsable input whose syntax error text
is `bad`, the `c` translation is just the header and footer; the parse
error was captured as a `COMMENT` instruction, but the error text does
not occur anywhere in the generated output — `Generator._gen_block` has
no `COMMENT` branch, so the comment is dropped rather than rendered. -/
theorem C1_error_comment_not_rendered :
    translate (.error "bad") "c" =
      "#include <stdio.h>\n\nint main() \x7b\n    return 0;\n\x7d" ∧
    parse (.error "bad") = [Instr.comment "Error: bad"] ∧
    strOccurs (translate (.error "bad") "c") "bad" = false :=
  ⟨rfl, rfl, rfl⟩

/-- C1 (amended): `translate` is total — it returns a generated string for
every parse outcome and every target in `{c, cpp, java}`, and an internal
parse error is captured as a `Comment` IR node; but the generator emits
nothing for a `Comment` instruction, so the captured error text is absent
from the generated output, which collapses to the target's header and
footer alone. -/
theorem C1_translate_total_comment_dropped (e x lang : String) (n : Nat)
    (d : List String) :
    genInstr lang (Instr.comment x) n d = ([], d) ∧
    translate (.error e) "c" =
      "#include <stdio.h>\n\nint main() \x7b\n    return 0;\n\x7d" ∧
    translate (.error e) "cpp" =
      "#include <iostream>\nusing namespace std;\n\nint main() \x7b\n    return 0;\n\x7d" ∧
    translate (.error e) "java" =
      "public class Main \x7b\n    public static void main(String[] args) \x7b\n    \x7d\n\x7d" :=
  ⟨rfl, rfl, rfl, rfl⟩

/-- C2: for every input whose text fails to parse (i.e. `ast.parse`
raises, with error text `e`), the resulting IR is exactly one `Comment`
instruction carrying the error description and nothing else; the IR does
not depend on the target. -/
theorem C2_parse_failure_single_comment (e : String) :
    parse (.error e) = [Instr.comment ("Error: " ++ e)] ∧
    (parse (.error e)).length = 1 :=
  ⟨rfl, rfl⟩

/-- C3: translating the single statement `print("a", b)` (with `b` a bare
name) yields, per target, exactly the claimed print statement — shown on
the full generated programs. -/
theorem C3_print_two_args :
    translate (.ok [.exprStmt (.call (.name "print") [.constStr "a", .name "b"])]) "c" =
      "#include <stdio.h>\n\nint main() \x7b\n    printf(\"%s %d\\n\", \"a\", b);\n    return 0;\n\x7d" ∧
    translate (.ok [.exprStmt (.call (.name "print") [.constStr "a", .name "b"])]) "cpp" =
      "#include <iostream>\nusing namespace std;\n\nint main() \x7b\n    cout << \"a\" << \" \" << b << endl;\n    return 0;\n\x7d" ∧
    translate (.ok [.exprStmt (.call (.name "print") [.constStr "a", .name "b"])]) "java" =
      "public class Main \x7b\n    public static void main(String[] args) \x7b\n        System.out.println(\"a\" + \" \" + b);\n    \x7d\n\x7d" :=
  ⟨rfl, rfl, rfl⟩

/-- C8: the expression renderer maps a binary arithmetic node to
left-text, one space, the operator symbol (`+`, `-`, `*`, `/`, with any
unrecognized operator class defaulting to `+`), one space, right-text,
tagged `auto`; and every expression kind other than a constant, a bare
name, or a binary operation (calls, comparisons, and all remaining kinds)
renders as the literal `"0"` tagged `int`. -/
theorem C8_renderer_binop_and_fallback (l r f c : PyExpr) (op : PyBinOp)
    (cop : PyCmpOp) (args : List PyExpr) :
    eval_val (.binOp l op r) =
      ((eval_val l).1 ++ " " ++ binOpSym op ++ " " ++ (eval_val r).1, "auto") ∧
    binOpSym .add = "+" ∧ binOpSym .sub = "-" ∧ binOpSym .mult = "*" ∧
    binOpSym .div = "/" ∧ binOpSym .otherOp = "+" ∧
    eval_val (.call f args) = ("0", "int") ∧
    eval_val (.compare l cop c) = ("0", "int") ∧
    eval_val .otherExpr = ("0", "int") :=
  ⟨rfl, rfl, rfl, rfl, rfl, rfl, rfl, rfl, rfl⟩

/-- C10: every stored print part has all double-quote characters removed
from its text, and it is tagged `string` exactly when the rendered text
of the original argument contained a double quote; in particular the
mixed argument of `print("a" + x)` becomes the single `string` part
`a + x`, which the generator then emits as one quoted literal. -/
theorem C10_print_part_quote_invariant (arg : PyExpr) :
    hasQuote (mkPrintPart arg).val = false ∧
    ((mkPrintPart arg).ptype = "string" ↔ hasQuote (eval_val arg).1 = true) ∧
    visitNode (.exprStmt (.call (.name "print")
        [.binOp (.constStr "a") .add (.name "x")])) []
      = ([Instr.print [⟨"a + x", "string"⟩]], none) ∧
    genInstr "cpp" (Instr.print [⟨"a + x", "string"⟩]) 1 []
      = ([tabOf 1 ++ "cout << " ++ quoteStr ++ "a + x" ++ quoteStr ++ " << endl;"], []) := by
  refine ⟨hasQuote_stripQuotes _, ?_, rfl, rfl⟩
  by_cases h : hasQuote (eval_val arg).1 <;> simp [mkPrintPart, h]

/-- C4: within one generation pass, an `Assign` to a name already in the
declared set emits a bare reassignment and leaves the set unchanged; an
`Assign` to a new name emits a typed declaration and adds the name; a
`For` header registers its loop variable in the resulting set; and the
declared set only ever grows while generating any instruction sequence at
any nesting (so a name once declared is in the set for the rest of the
pass, and every later `Assign` to it takes the bare-reassignment branch). -/
theorem C4_declaration_tracking (lang name val vtype : String) (n : Nat)
    (d : List String) :
    (name ∈ d →
      genInstr lang (Instr.assign name val vtype) n d
        = ([tabOf n ++ name ++ " = " ++ val ++ ";"], d)) ∧
    (name ∉ d →
      genInstr lang (Instr.assign name val vtype) n d
        = ([tabOf n ++ fixType lang vtype ++ " " ++ name ++ " = " ++ val ++ ";"],
           name :: d)) ∧
    (∀ limit body, name ∈ (genInstr lang (Instr.forI name limit body) n d).2) ∧
    (∀ instrs m d', d' ⊆ (genBlock lang instrs m d').2) := by
  refine ⟨fun h => by simp [genInstr, h], fun h => by simp [genInstr, h], ?_, ?_⟩
  · intro limit body
    simp only [genInstr]
    exact genBlock_sub lang body (n + 1) (name :: d) (List.mem_cons_self name d)
  · intro instrs m d'
    exact genBlock_sub lang instrs m d'

/-- C4 witness: with `x` already declared, `x = 2` re-emits no type; the
fresh name `y` gets a typed declaration and joins the declared set. -/
theorem C4_declaration_tracking_witness :
    genInstr "c" (Instr.assign "x" "2" "int") 0 ["x"]
      = ([tabOf 0 ++ "x" ++ " = " ++ "2" ++ ";"], ["x"]) ∧
    genInstr "cpp" (Instr.assign "y" "3" "auto") 0 ["x"]
      = ([tabOf 0 ++ fixType "cpp" "auto" ++ " " ++ "y" ++ " = " ++ "3" ++ ";"],
         "y" :: ["x"]) :=
  ⟨(C4_declaration_tracking "c" "x" "2" "int" 0 ["x"]).1 (by decide),
   (C4_declaration_tracking "cpp" "y" "3" "auto" 0 ["x"]).2.1 (by decide)⟩

/-- C5: wrapping any statement sequence `S` in the top-level guard
`if __name__ == "__main__":` yields an IR identical to parsing `S`
unguarded — the guard is structurally unwrapped, never turned into an
`If` instruction. -/
theorem C5_guard_unwrap (S : List PyStmt) :
    parse (.ok [PyStmt.ifStmt mainGuardTest S []]) = parse (.ok S) := by
  have hmc : is_main_check mainGuardTest = true := rfl
  have hm : visitNode (PyStmt.ifStmt mainGuardTest S []) [] = visitBlock S [] := by
    simp [visitNode, hmc]
  have h : visitBlock [PyStmt.ifStmt mainGuardTest S []] [] = visitBlock S [] := by
    simp only [visitBlock]
    rw [hm]
    rcases h2 : visitBlock S [] with ⟨b, err⟩
    cases err <;> simp [visitBlock]
  simp only [parse, h]

/-- C9: the entry-point-guard detection never reads the comparison
operator — for every operator `op` (including `!=`) the test
`__name__ op "__main__"` passes `_is_main_check`, the `If`'s body is
inlined into the current block, and its else branch is discarded (the
result does not depend on `orelse`). -/
theorem C9_guard_operator_ignored (op : PyCmpOp) (body orelse rest : List PyStmt)
    (block : List Instr) :
    is_main_check (.compare (.name "__name__") op (.constStr "__main__")) = true ∧
    visitBlock (.ifStmt (.compare (.name "__name__") op (.constStr "__main__"))
        body orelse :: rest) block
      = visitBlock (body ++ rest) block := by
  have hmc : is_main_check
      (.compare (.name "__name__") op (.constStr "__main__")) = true := by
    cases op <;> rfl
  refine ⟨hmc, ?_⟩
  rw [visitBlock_append]
  have hm : visitNode (PyStmt.ifStmt
      (.compare (.name "__name__") op (.constStr "__main__")) body orelse) block
      = visitBlock body block := by
    simp [visitNode, hmc]
  simp only [visitBlock]
  rw [hm]

/-- C6 (counterexample): `for i in range(2, 10)` is a call shape that is
not the single-argument `range` form, yet the emitted `For` limit is the
first argument's text `2`, not the literal `10` the claim requires. -/
theorem C6_counterexample_range_two_args :
    parse (.ok [.forStmt (.name "i")
        (.call (.name "range") [.constInt 2, .constInt 10]) []])
      = [Instr.forI "i" "2" []] ∧
    parse (.ok [.forStmt (.name "i")
        (.call (.name "range") [.constInt 2, .constInt 10]) []])
      ≠ [Instr.forI "i" "10" []] := by
  have h1 : parse (.ok [.forStmt (.name "i")
      (.call (.name "range") [.constInt 2, .constInt 10]) []])
      = [Instr.forI "i" "2" []] := rfl
  refine ⟨h1, ?_⟩
  rw [h1]
  simp

/-- C6 (amended): the `For` limit is the rendered first argument whenever
the iterable is a call of the bare name `range` with at least one
argument (extra arguments are ignored); a call of any other bare name, or
a non-call iterable, yields the literal `10`; a `range()` call with no
arguments or a call whose function is not a bare name raises, aborting
the parse; and a well-shaped `For` emits `For{name, limit}` with that
limit. -/
theorem C6_for_limit_shapes (iter : PyExpr) (id : String) (body : List PyStmt)
    (block : List Instr) :
    (∀ a rest, iter = .call (.name "range") (a :: rest) →
       forLimit iter = .ok (eval_val a).1) ∧
    (∀ fid args, iter = .call (.name fid) args → fid ≠ "range" →
       forLimit iter = .ok "10") ∧
    ((∀ f args, iter ≠ .call f args) → forLimit iter = .ok "10") ∧
    forLimit (.call (.name "range") [])
      = .error "IndexError: list index out of range" ∧
    (∀ f args, (∀ s, f ≠ PyExpr.name s) →
       forLimit (.call f args)
         = .error "AttributeError: object has no attribute id") ∧
    (∀ limit lb, forLimit iter = .ok limit → visitBlock body [] = (lb, none) →
       visitNode (.forStmt (.name id) iter body) block
         = (block ++ [Instr.forI id limit lb], none)) := by
  refine ⟨?_, ?_, ?_, rfl, ?_, ?_⟩
  · rintro a rest rfl
    rfl
  · rintro fid args rfl hne
    simp [forLimit, hne]
  · intro h
    cases iter with
    | constStr v => rfl
    | constFloat t => rfl
    | constInt v => rfl
    | name i => rfl
    | binOp a o b => rfl
    | call f args => exact absurd rfl (h f args)
    | compare a o b => rfl
    | otherExpr => rfl
  · intro f args hf
    cases f with
    | constStr v => rfl
    | constFloat t => rfl
    | constInt v => rfl
    | name s => exact absurd rfl (hf s)
    | binOp a o b => rfl
    | call g gargs => rfl
    | compare a o b => rfl
    | otherExpr => rfl
  · intro limit lb h1 h2
    simp [visitNode, targetId, h1, h2]

/-- C6 witness: `for i in range(5)` emits `For{i, 5}`. -/
theorem C6_for_limit_shapes_witness :
    forLimit (.call (.name "range") [.constInt 5])
      = .ok (eval_val (.constInt 5)).1 ∧
    visitNode (.forStmt (.name "i") (.call (.name "range") [.constInt 5]) []) []
      = ([] ++ [Instr.forI "i" (eval_val (.constInt 5)).1 []], none) :=
  ⟨(C6_for_limit_shapes (.call (.name "range") [.constInt 5]) "i" [] []).1
     (.constInt 5) [] rfl,
   (C6_for_limit_shapes (.call (.name "range") [.constInt 5]) "i" [] []).2.2.2.2.2
     (eval_val (.constInt 5)).1 [] rfl rfl⟩

/-- C7 (counterexample): for `print(b, "a")` in cpp, the second part is a
string literal and is emitted with no single-space separator: the output
line is `cout << b << "a" << endl;` and the one-space string literal
occurs nowhere in the generated text. -/
theorem C7_counterexample_string_part_no_separator :
    translate (.ok [.exprStmt (.call (.name "print") [.name "b", .constStr "a"])])
        "cpp"
      = "#include <iostream>\nusing namespace std;\n\nint main() \x7b\n    cout << b << \"a\" << endl;\n    return 0;\n\x7d" ∧
    strOccurs
      (translate (.ok [.exprStmt (.call (.name "print")
          [.name "b", .constStr "a"])]) "cpp")
      (quoteStr ++ " " ++ quoteStr) = false :=
  ⟨rfl, rfl⟩

/-- C7 (amended): only variable/numeric parts after the first are
prefixed with the single-space literal in cpp and java; string-literal
parts render as the bare quoted literal at every position; in c, the
format string separates consecutive per-part placeholders with single
spaces, so there every part after the first is preceded by a space. -/
theorem C7_separator_only_nonstring (i : Nat) (p : PrintPart)
    (q q' : PrintPart) (qs' : List PrintPart) :
    (p.ptype ≠ "string" → 0 < i →
       cppPartRender (i, p) = quoteStr ++ " " ++ quoteStr ++ " << " ++ p.val ∧
       javaPartRender (i, p) = quoteStr ++ " " ++ quoteStr ++ " + " ++ p.val) ∧
    (p.ptype = "string" →
       cppPartRender (i, p) = quoteStr ++ p.val ++ quoteStr ∧
       javaPartRender (i, p) = quoteStr ++ p.val ++ quoteStr) ∧
    String.intercalate " " ((q :: q' :: qs').map cFmtPart)
      = cFmtPart q ++ " " ++ String.intercalate " " ((q' :: qs').map cFmtPart) := by
  refine ⟨?_, ?_, ?_⟩
  · intro h hi
    exact ⟨by simp [cppPartRender, h, hi], by simp [javaPartRender, h, hi]⟩
  · intro h
    exact ⟨by simp [cppPartRender, h], by simp [javaPartRender, h]⟩
  · rw [List.map_cons]
    exact intercalate_cons_cons " " (cFmtPart q) (cFmtPart q') (qs'.map cFmtPart)

/-- C7 witness: the non-string part `b` at index 1 is space-prefixed in
cpp and java. -/
theorem C7_separator_only_nonstring_witness :
    cppPartRender (1, ⟨"b", "var"⟩) = quoteStr ++ " " ++ quoteStr ++ " << " ++ "b" ∧
    javaPartRender (1, ⟨"b", "var"⟩) = quoteStr ++ " " ++ quoteStr ++ " + " ++ "b" :=
  (C7_separator_only_nonstring 1 ⟨"b", "var"⟩ ⟨"x", "var"⟩ ⟨"y", "var"⟩ []).1
    (by decide) (by decide)

end App
